import Mathlib

/-!
Verification development for the EasyBackup repository (src/EasyBackup.py,
src/logger.py): a shallow embedding of the backup DSL parser, the
time-condition evaluators, the backup executor and the polling scheduler,
together with theorems settling the specification claims.

Modelling conventions:
* Wall-clock instants (`datetime.datetime`) are modelled as `Int` seconds;
  `timedelta.total_seconds()` of `now - begin` is `now - begin`.
* Python exceptions are modelled by `Except PyExc`; code that installs no
  handler is translated with plain `match`/bind, so an error propagates.
* The filesystem is a flat association list from path strings to whole
  subtrees, plus a list of `locked` destination paths on which the copy
  primitives (`shutil.copytree` / `shutil.copy2`) raise, modelling
  permission/IO failures.  Only the `log.error` call of the executor's
  source-missing branch is modelled (as an `Action`); info/debug logs are
  not observable in any claim.
-/

namespace EasyBackup

/-- Python exceptions that the translated code can raise. -/
inductive PyExc where
  | parseError
  | copyError
  | zeroDivisionError
  deriving DecidableEq, Repr

/-- A filesystem entry: a regular file with its content, or a directory
subtree given by named children. -/
inductive Node where
  | file (data : String) : Node
  | dir (children : List (String × Node)) : Node

/-- The filesystem state: a flat map from paths to entries, plus the set of
destination paths on which the copy primitives raise (permission denied,
disk full, ...). -/
structure FS where
  entries : List (String × Node)
  locked : List String

/-- Observable actions of `DirectBackupTask._run_backup`: the filesystem
calls it makes (`shutil.rmtree`, `shutil.copytree`, `shutil.copy2`) and the
source-missing `log.error` of its else branch. -/
inductive Action where
  | rmtree (path : String)
  | copytree (source destination : String)
  | copy2 (source destination : String)
  | logError (source destination : String)
  deriving DecidableEq, Repr

/-- `os.path.exists`. -/
def pexists (p : String) (fs : FS) : Bool :=
  (fs.entries.lookup p).isSome

/-- `os.path.isdir`. -/
def pisdir (p : String) (fs : FS) : Bool :=
  match fs.entries.lookup p with
  | some (Node.dir _) => true
  | _ => false

/-- `shutil.rmtree`: remove the subtree bound at `p`. -/
def rmtree (p : String) (fs : FS) : FS :=
  { fs with entries := fs.entries.filter (fun e => e.1 != p) }

/-- `shutil.copytree src dst`: raises if `dst` is locked, if `dst` already
exists (Python's copytree requires a fresh destination — the reason the
executor removes the destination first), or if `src` is missing; otherwise
binds `dst` to the whole subtree of `src`. -/
def copytree (src dst : String) (fs : FS) : Except PyExc FS :=
  if fs.locked.contains dst then .error .copyError
  else if pexists dst fs then .error .copyError
  else
    match fs.entries.lookup src with
    | none => .error .copyError
    | some n => .ok { fs with entries := (dst, n) :: fs.entries }

/-- `shutil.copy2 src dst`: raises if `dst` is locked or `src` is missing;
otherwise binds `dst` to the entry of `src`, overwriting any previous
binding. -/
def copy2 (src dst : String) (fs : FS) : Except PyExc FS :=
  if fs.locked.contains dst then .error .copyError
  else
    match fs.entries.lookup src with
    | none => .error .copyError
    | some n => .ok { fs with entries := (dst, n) :: fs.entries }

/-- `DirectBackupTask._run_backup` (src/EasyBackup.py lines 42-59): returns
the list of observable actions it performs and the resulting filesystem (or
the uncaught exception).  The source-missing branch only logs an error. -/
def run_backup (source destination : String) (fs : FS) :
    List Action × Except PyExc FS :=
  if pexists source fs then
    if pisdir source fs then
      let step : List Action × FS :=
        if pexists destination fs then
          ([Action.rmtree destination], rmtree destination fs)
        else ([], fs)
      (step.1 ++ [Action.copytree source destination],
        copytree source destination step.2)
    else
      ([Action.copy2 source destination], copy2 source destination fs)
  else
    ([Action.logError source destination], .ok fs)

/-- `every_minutes` (src/EasyBackup.py lines 76-85): the recurrence
condition closure.  `elapsed_minutes = int(delta.total_seconds() / 60)` is
Python truncation toward zero, i.e. `Int.tdiv`; Python's `%` with a
positive (or zero-tested) modulus is `Int.emod`, and `% 0` raises
`ZeroDivisionError`, modelled by `none`. -/
def every_minutes (nb_minutes : Nat) (begin_dt now : Int) : Option Bool :=
  let delta : Int := now - begin_dt
  let elapsed_minutes : Int := Int.tdiv delta 60
  if nb_minutes = 0 then none
  else some (decide (elapsed_minutes.emod (nb_minutes : Int) = 0))

/-- Hour-of-day of an instant (seconds since epoch, fixed clock offset). -/
def dtHour (t : Int) : Int := (Int.fdiv t 3600).emod 24

/-- Minute-of-hour of an instant. -/
def dtMinute (t : Int) : Int := (Int.fdiv t 60).emod 60

/-- `specific_time` (src/EasyBackup.py lines 88-95): the fixed-time
condition closure; it receives `begin_dt` but never reads it. -/
def specific_time (hour minute : Nat) (begin_dt now : Int) : Bool :=
  dtHour now == (hour : Int) && dtMinute now == (minute : Int)

/-- A parsed time expression, one per alternative that
`App._parse_run` distinguishes by tree label (lines 144-164). -/
inductive TimeExpr where
  | everyNbMinutes (n : Nat)
  | everyNbHours (n : Nat)
  | everyHour
  | everyMinute
  | atTime (h m : Nat)
  deriving DecidableEq, Repr

/-- A runtime time condition: the closure that
`TimeConditionedBackup` stores (`every_minutes` with its captured count, or
`specific_time` with its captured hour/minute). -/
inductive Condition where
  | everyMin (n : Nat)
  | specific (h m : Nat)
  deriving DecidableEq, Repr

/-- Evaluate a stored condition closure at `created_at` and `now`. -/
def condMatches : Condition → Int → Int → Option Bool
  | Condition.everyMin n, c, t => every_minutes n c t
  | Condition.specific h m, c, t => some (specific_time h m c t)

/-- The condition built by `App._parse_run` for each time-expression label
(src/EasyBackup.py lines 144-164): `every_nb_minutes n ↦ every_minutes n`,
`every_nb_hours n ↦ every_minutes (n * 60)`, `every_hour ↦ every_minutes
60`, `every_minute ↦ every_minutes 1`, `precise_time_expression h m ↦
specific_time h m`. -/
def compileTimeExpr : TimeExpr → Condition
  | TimeExpr.everyNbMinutes n => Condition.everyMin n
  | TimeExpr.everyNbHours n => Condition.everyMin (n * 60)
  | TimeExpr.everyHour => Condition.everyMin 60
  | TimeExpr.everyMinute => Condition.everyMin 1
  | TimeExpr.atTime h m => Condition.specific h m

/-- The spec's `EveryNMinutes(n)` evaluator, written from the spec's own
words (§3/§4.2): `elapsed_minutes = floor((now - created_at) / 60)`, match
iff `elapsed_minutes mod n = 0`; the spec restricts `n` to positive
integers, so `n = 0` is outside its domain (modelled as `none`). -/
def specEveryNMinutes (n : Nat) (created_at now : Int) : Option Bool :=
  if n = 0 then none
  else some (decide ((Int.fdiv (now - created_at) 60).emod (n : Int) = 0))

/-- A parsed backup instruction: source, destination, optional time
expression. -/
structure Instruction where
  source : String
  destination : String
  cond : Option TimeExpr
  deriving DecidableEq, Repr

/-- A registered conditional task (`TimeConditionedBackup`): the wrapped
instruction paths, the stored condition closure and the `created_at`
timestamp stamped at construction. -/
structure Task where
  source : String
  destination : String
  cond : Condition
  created_at : Int

/-- Split a character list at every occurrence of `sep`. -/
def splitChars (sep : Char) : List Char → List (List Char)
  | [] => [[]]
  | c :: cs =>
    let r := splitChars sep cs
    if c = sep then [] :: r
    else
      match r with
      | [] => [[c]]
      | w :: ws => (c :: w) :: ws

/-- Accumulate the decimal value of a digit string; `none` on a
non-digit. -/
def digitsValAux : Nat → List Char → Option Nat
  | acc, [] => some acc
  | acc, c :: cs =>
    if c.isDigit then digitsValAux (acc * 10 + (c.toNat - 48)) cs else none

/-- The value of an INT token: a non-empty string of decimal digits. -/
def digitsVal : List Char → Option Nat
  | [] => none
  | l => digitsValAux 0 l

/-- Split a program line into whitespace-separated tokens. -/
def tokenizeLine (s : List Char) : List String :=
  ((splitChars ' ' s).filter (fun w => !w.isEmpty)).map String.mk

/-- Modelled from the spec: the grammar file `backup_dsl.ebnf` that
`App._parse_run` loads is not under src/, so statement syntax follows the
spec's grammar (§4.1): `"backup" PATH "to" PATH [":" time_expr]` with
`time_expr := "every" (INT "minutes" | INT "hours" | "hour" | "minute") |
"at" INT ":" INT`; anything else is a syntax error. -/
def parseStatement (toks : List String) : Except PyExc Instruction :=
  match toks with
  | ["backup", p, "to", q] => .ok ⟨p, q, none⟩
  | ["backup", p, "to", q, ":", "every", "hour"] =>
    .ok ⟨p, q, some TimeExpr.everyHour⟩
  | ["backup", p, "to", q, ":", "every", "minute"] =>
    .ok ⟨p, q, some TimeExpr.everyMinute⟩
  | ["backup", p, "to", q, ":", "every", n, "minutes"] =>
    match digitsVal n.data with
    | some k => .ok ⟨p, q, some (TimeExpr.everyNbMinutes k)⟩
    | none => .error .parseError
  | ["backup", p, "to", q, ":", "every", n, "hours"] =>
    match digitsVal n.data with
    | some k => .ok ⟨p, q, some (TimeExpr.everyNbHours k)⟩
    | none => .error .parseError
  | ["backup", p, "to", q, ":", "at", h, ":", m] =>
    match digitsVal h.data, digitsVal m.data with
    | some a, some b => .ok ⟨p, q, some (TimeExpr.atTime a b)⟩
    | _, _ => .error .parseError
  | _ => .error .parseError

/-- Modelled from the spec: parse a list of program lines; blank lines are
skipped, and any malformed line fails the whole parse (Lark parses the
entire text before `App._parse_run` looks at any statement). -/
def parseLines : List (List Char) → Except PyExc (List Instruction)
  | [] => .ok []
  | l :: ls =>
    let toks := tokenizeLine l
    if toks.isEmpty then parseLines ls
    else
      match parseStatement toks with
      | .error e => .error e
      | .ok i =>
        match parseLines ls with
        | .error e => .error e
        | .ok is => .ok (i :: is)

/-- Modelled from the spec: whole-program parse, all-or-nothing. -/
def parseProgram (text : String) : Except PyExc (List Instruction) :=
  parseLines (splitChars '\n' text.data)

/-- The instruction loop of `App._parse_run` (src/EasyBackup.py lines
133-164): unconditional instructions run immediately through the executor
(recorded in the returned trace, in order), conditional ones are wrapped
into a `Task` whose `created_at` is the clock reading at that registration
step (`clock i` for the `i`-th instruction).  No exception handler
anywhere, so a copy error aborts the loop. -/
def loadInstructions :
    List Instruction → FS → (Nat → Int) → Nat →
    Except PyExc (FS × List Task × List (String × String))
  | [], fs, _, _ => .ok (fs, [], [])
  | inst :: rest, fs, clock, i =>
    match inst.cond with
    | none =>
      match (run_backup inst.source inst.destination fs).2 with
      | .error e => .error e
      | .ok fs₁ =>
        match loadInstructions rest fs₁ clock (i + 1) with
        | .error e => .error e
        | .ok (fs', ts, tr) =>
          .ok (fs', ts, (inst.source, inst.destination) :: tr)
    | some e =>
      match loadInstructions rest fs clock (i + 1) with
      | .error err => .error err
      | .ok (fs', ts, tr) =>
        .ok (fs', ⟨inst.source, inst.destination, compileTimeExpr e, clock i⟩ :: ts, tr)

/-- The tasks that registration produces for an instruction list, starting
at instruction index `i`: a pure function of the instructions and the
registration clock alone. -/
def tasksOfAux : List Instruction → (Nat → Int) → Nat → List Task
  | [], _, _ => []
  | inst :: rest, clock, i =>
    match inst.cond with
    | none => tasksOfAux rest clock (i + 1)
    | some e =>
      ⟨inst.source, inst.destination, compileTimeExpr e, clock i⟩ ::
        tasksOfAux rest clock (i + 1)

/-- `App._parse_run` (src/EasyBackup.py lines 128-164): parse the whole
program text, then run the instruction loop. -/
def parseRun (text : String) (fs : FS) (clock : Nat → Int) :
    Except PyExc (FS × List Task × List (String × String)) :=
  match parseProgram text with
  | .error e => .error e
  | .ok insts => loadInstructions insts fs clock 0

/-- `TimeConditionedBackup._run_backup` (lines 71-73) for one task at one
tick: evaluate the stored condition at the stored `created_at`; on a raised
evaluator exception propagate it, on match run the wrapped executor, else
do nothing. -/
def runTask (task : Task) (fs : FS) (now : Int) : Except PyExc FS :=
  match condMatches task.cond task.created_at now with
  | none => .error .zeroDivisionError
  | some false => .ok fs
  | some true => (run_backup task.source task.destination fs).2

/-- One pass of the poll loop of `App.run` (src/EasyBackup.py lines
122-126) over the registered tasks: no exception handler, so the first
error aborts the pass and propagates. -/
def runTick : List Task → FS → Int → Except PyExc FS
  | [], fs, _ => .ok fs
  | t :: ts, fs, now =>
    match runTask t fs now with
    | .error e => .error e
    | .ok fs' => runTick ts fs' now

/-- Finitely many observed iterations of the infinite poll loop, the tick
at index `n` evaluated at clock reading `clock n`. -/
def runTicks (tasks : List Task) (clock : Nat → Int) :
    Nat → FS → Except PyExc FS
  | 0, fs => .ok fs
  | n + 1, fs =>
    match runTick tasks fs (clock n) with
    | .error e => .error e
    | .ok fs' => runTicks tasks clock n fs'

/-- `App.run` (src/EasyBackup.py lines 120-126): if any conditional task is
registered, enter the poll loop (observed for `fuel` ticks); otherwise
return at once. -/
def appRun (tasks : List Task) (fs : FS) (clock : Nat → Int) (fuel : Nat) :
    Except PyExc FS :=
  if 0 < tasks.length then runTicks tasks clock fuel fs else .ok fs

/-- A filesystem whose destination path `d` raises on copy. -/
def fsLocked : FS := ⟨[("s", Node.file "x")], ["d"]⟩

/-- A matching conditional task whose copy raises on `fsLocked`. -/
def taskLocked : Task := ⟨"s", "d", Condition.everyMin 1, 0⟩

/-- A second registered task, scheduled after `taskLocked` in the same
tick. -/
def taskLocked2 : Task := ⟨"s", "e", Condition.everyMin 1, 0⟩

/-- A matching conditional task whose source path does not exist. -/
def taskMissing : Task := ⟨"nope", "d", Condition.everyMin 1, 0⟩

/-- A filesystem where the source is a directory and the destination
already exists. -/
def fsDirCase : FS :=
  ⟨[("s", Node.dir [("x", Node.file "1")]), ("d", Node.file "old"),
    ("a", Node.file "keep")], []⟩

/-- A filesystem holding the two source files of the unconditional witness
program. -/
def fsFiles : FS := ⟨[("a", Node.file "1"), ("c", Node.file "2")], []⟩

/-- A concrete registration/tick clock: the `i`-th reading is `i`
seconds. -/
def clockId (n : Nat) : Int := (n : Int)

/-- The filesystem `fsFiles` after the two immediate copies of the
unconditional witness program. -/
def fsFilesAfter : FS :=
  ⟨[("d", Node.file "2"), ("b", Node.file "1"), ("a", Node.file "1"),
    ("c", Node.file "2")], []⟩

/- ------------------------------------------------------------------ -/
/- Helper lemmas                                                       -/
/- ------------------------------------------------------------------ -/

theorem tdiv_sixty_eq_fdiv_sixty {a : Int} (h : 0 ≤ a) :
    Int.tdiv a 60 = Int.fdiv a 60 := by
  rw [Int.tdiv_eq_ediv h (by decide), Int.fdiv_eq_ediv _ (by decide)]

theorem lookup_filter_self (l : List (String × Node)) (p : String) :
    (l.filter (fun e => e.1 != p)).lookup p = none := by
  induction l with
  | nil => rfl
  | cons x xs ih =>
    rcases x with ⟨k, v⟩
    by_cases h : k = p
    · subst h
      simpa [List.filter_cons] using ih
    · simp [List.filter_cons, bne_iff_ne.mpr h, List.lookup_cons,
        beq_eq_false_iff_ne.mpr (Ne.symm h), ih]

theorem lookup_filter_ne (l : List (String × Node)) (p q : String)
    (h : q ≠ p) :
    (l.filter (fun e => e.1 != p)).lookup q = l.lookup q := by
  induction l with
  | nil => rfl
  | cons x xs ih =>
    rcases x with ⟨k, v⟩
    by_cases hk : k = p
    · subst hk
      simpa [List.filter_cons, List.lookup_cons,
        beq_eq_false_iff_ne.mpr h] using ih
    · by_cases hq : q = k
      · subst hq
        simp [List.filter_cons, bne_iff_ne.mpr hk, List.lookup_cons]
      · simp [List.filter_cons, bne_iff_ne.mpr hk, List.lookup_cons,
          beq_eq_false_iff_ne.mpr hq, ih]

/- ------------------------------------------------------------------ -/
/- Claim theorems                                                      -/
/- ------------------------------------------------------------------ -/

/-- Claim C1, counterexample: at `created_at = 90`, `now = 0`, `n = 2` the
evaluator returns `some false` (Python `int()` truncates `-1.5` to `-1`,
and `-1 mod 2 = 1`), while the claim's formula `floor((now - created_at) /
60) mod n` is `(-2) mod 2 = 0` and so demands a match.  The claim as
stated — quantified over every evaluation time `now` — is therefore false
on the code. -/
theorem c1_counterexample :
    every_minutes 2 90 0 = some false
    ∧ (Int.fdiv (0 - 90) 60).emod 2 = 0 := by decide

/-- Claim C1, amended: for every `EveryNMinutes(n)` condition with `n`
positive, every `created_at`, and every evaluation time `now` that is not
earlier than `created_at` (for earlier `now` the code truncates toward
zero where the claim's formula floors), the evaluator matches iff
`floor((now - created_at) / 60) mod n = 0`; in particular at
`elapsed_minutes = 0` it always matches. -/
theorem c1_amended (n : Nat) (c t : Int) (hn : 0 < n) (hct : c ≤ t) :
    (every_minutes n c t = some true
      ↔ (Int.fdiv (t - c) 60).emod (n : Int) = 0)
    ∧ (Int.fdiv (t - c) 60 = 0 → every_minutes n c t = some true) := by
  have hd : Int.tdiv (t - c) 60 = Int.fdiv (t - c) 60 :=
    tdiv_sixty_eq_fdiv_sixty (sub_nonneg.mpr hct)
  constructor
  · simp [every_minutes, hn.ne', hd]
  · intro h0
    simp [every_minutes, hn.ne', hd, h0]
    exact Int.zero_emod _

/-- Witness for C1's amended theorem at `n = 3`, `created_at = 5`,
`now = 30` (elapsed minutes `0`, so it matches). -/
theorem c1_witness : every_minutes 3 5 30 = some true :=
  (c1_amended 3 5 30 (by decide) (by decide)).2 (by decide)

/-- Claim C5, confirmed: `specific_time h m` ignores `created_at`
entirely — two tasks with the same `(h, m)` but different `created_at`
agree at every `now` — and it matches iff `now.hour = h` and
`now.minute = m`. -/
theorem c5_specific_time (h m : Nat) (c₁ c₂ t : Int) :
    specific_time h m c₁ t = specific_time h m c₂ t
    ∧ (specific_time h m c₁ t = true
        ↔ (dtHour t = (h : Int) ∧ dtMinute t = (m : Int))) := by
  refine ⟨rfl, ?_⟩
  simp [specific_time]

/-- Claim C9, counterexample: at `created_at = 30`, `now = 0` the parsed
`every hour` condition (`every_minutes 60`, truncating division) matches,
but the spec's `EveryNMinutes(60)` (floor division) does not, so the match
results do not coincide for every `created_at` and `now`. -/
theorem c9_counterexample :
    condMatches (compileTimeExpr TimeExpr.everyHour) 30 0 = some true
    ∧ specEveryNMinutes 60 30 0 = some false := by decide

/-- Claim C9, amended: for every `created_at` and every `now` not earlier
than `created_at`, the parsed recurrence forms coincide with the spec's
`EveryNMinutes` instances: `every hour` with `EveryNMinutes(60)`, `every
minute` with `EveryNMinutes(1)`, and `every N hours` with
`EveryNMinutes(60·N)`. -/
theorem c9_amended (n : Nat) (c t : Int) (hct : c ≤ t) :
    condMatches (compileTimeExpr TimeExpr.everyHour) c t
      = specEveryNMinutes 60 c t
    ∧ condMatches (compileTimeExpr TimeExpr.everyMinute) c t
      = specEveryNMinutes 1 c t
    ∧ condMatches (compileTimeExpr (TimeExpr.everyNbHours n)) c t
      = specEveryNMinutes (60 * n) c t := by
  have hd : Int.tdiv (t - c) 60 = Int.fdiv (t - c) 60 :=
    tdiv_sixty_eq_fdiv_sixty (sub_nonneg.mpr hct)
  refine ⟨?_, ?_, ?_⟩
  · simp [condMatches, compileTimeExpr, every_minutes, specEveryNMinutes, hd]
  · simp [condMatches, compileTimeExpr, every_minutes, specEveryNMinutes, hd]
  · rcases Nat.eq_zero_or_pos n with hn | hn
    · subst hn
      simp [condMatches, compileTimeExpr, every_minutes, specEveryNMinutes]
    · have h1 : n * 60 ≠ 0 := by omega
      have h2 : 60 * n ≠ 0 := by omega
      simp [condMatches, compileTimeExpr, every_minutes, specEveryNMinutes,
        h1, h2, hd, Nat.mul_comm n 60]

/-- Witness for C9's amended theorem at `n = 2`, `created_at = 0`,
`now = 7200`. -/
theorem c9_witness :
    condMatches (compileTimeExpr TimeExpr.everyHour) 0 7200
      = specEveryNMinutes 60 0 7200 :=
  (c9_amended 2 0 7200 (by decide)).1

/-- Claim C10, confirmed: the statement form `every 0 minutes` is accepted
by the parser and compiled to `every_minutes 0`; evaluating that condition
raises `ZeroDivisionError` (modelled `none`) for every `created_at` and
`now`, and the evaluator returns a boolean whenever `n > 0`. -/
theorem c10_division_by_zero :
    parseProgram "backup a to b : every 0 minutes"
      = Except.ok [⟨"a", "b", some (TimeExpr.everyNbMinutes 0)⟩]
    ∧ (∀ c t : Int,
        condMatches (compileTimeExpr (TimeExpr.everyNbMinutes 0)) c t = none)
    ∧ (∀ (n : Nat) (c t : Int), 0 < n →
        (every_minutes n c t).isSome = true) := by
  refine ⟨by rfl, fun c t => rfl, fun n c t hn => ?_⟩
  simp [every_minutes, hn.ne']

/-- Witness for C10's theorem at `n = 7`, `created_at = 5`, `now = 300`. -/
theorem c10_witness : (every_minutes 7 5 300).isSome = true :=
  c10_division_by_zero.2.2 7 5 300 (by decide)

/-- A fresh-destination copytree succeeds and binds the destination to the
source's subtree. -/
theorem copytree_fresh (src dst : String) (fs : FS) (n : Node)
    (hl : fs.locked.contains dst = false) (hdst : pexists dst fs = false)
    (hn : fs.entries.lookup src = some n) :
    copytree src dst fs
      = Except.ok { fs with entries := (dst, n) :: fs.entries } := by
  have hl' : dst ∉ fs.locked := by simpa using hl
  simp [copytree, hl', hdst, hn]

/-- Claim C8, confirmed: when the source does not exist, the executor only
reports the source-missing error — no filesystem call is made, the whole
filesystem (in particular the destination) is untouched, and no exception
is raised, so the process continues. -/
theorem c8_source_missing (src dst : String) (fs : FS)
    (h : pexists src fs = false) :
    run_backup src dst fs = ([Action.logError src dst], Except.ok fs) := by
  simp [run_backup, h]

/-- Witness for C8's theorem: backing up the missing path `nope`. -/
theorem c8_witness :
    run_backup "nope" "d" fsLocked
      = ([Action.logError "nope" "d"], Except.ok fsLocked) :=
  c8_source_missing "nope" "d" fsLocked rfl

/-- Claim C7, confirmed: when the source exists and is a directory, the
executor removes an existing destination recursively and only then calls
the recursive copy (with no prior removal when the destination is absent);
when the copy primitives do not fail and the paths are distinct, the
destination afterwards holds exactly the source's subtree — a
destroy-and-replace mirror, old destination content gone — and every other
path is unchanged. -/
theorem c7_dir_mirror (src dst : String) (fs : FS)
    (hs : pexists src fs = true) (hd : pisdir src fs = true) :
    (run_backup src dst fs).1
      = (if pexists dst fs then [Action.rmtree dst, Action.copytree src dst]
          else [Action.copytree src dst])
    ∧ (fs.locked.contains dst = false → src ≠ dst →
        ((run_backup src dst fs).2.map (fun fs2 => fs2.entries.lookup dst)
            = Except.ok (fs.entries.lookup src)
          ∧ ∀ p, p ≠ dst →
              (run_backup src dst fs).2.map (fun fs2 => fs2.entries.lookup p)
                = Except.ok (fs.entries.lookup p))) := by
  obtain ⟨n, hn⟩ :=
    Option.isSome_iff_exists.mp
      (show (fs.entries.lookup src).isSome = true from hs)
  constructor
  · cases hdst : pexists dst fs <;> simp [run_backup, hs, hd, hdst]
  · intro hl hne
    cases hdst : pexists dst fs
    · have hcopy := copytree_fresh src dst fs n hl hdst hn
      have hrb : (run_backup src dst fs).2 = copytree src dst fs := by
        simp [run_backup, hs, hd, hdst]
      rw [hrb, hcopy]
      constructor
      · simp [Except.map, hn]
      · intro p hp
        simp [Except.map, List.lookup_cons, beq_eq_false_iff_ne.mpr hp]
    · have hlook : (rmtree dst fs).entries.lookup src = some n := by
        show (fs.entries.filter (fun e => e.1 != dst)).lookup src = some n
        rw [lookup_filter_ne _ _ _ hne]
        exact hn
      have hdst0 : pexists dst (rmtree dst fs) = false := by
        simp [pexists, rmtree, lookup_filter_self]
      have hl0 : (rmtree dst fs).locked.contains dst = false := hl
      have hcopy := copytree_fresh src dst (rmtree dst fs) n hl0 hdst0 hlook
      have hrb : (run_backup src dst fs).2 = copytree src dst (rmtree dst fs) := by
        simp [run_backup, hs, hd, hdst]
      rw [hrb, hcopy]
      constructor
      · simp [Except.map, hn]
      · intro p hp
        simp [Except.map, List.lookup_cons, beq_eq_false_iff_ne.mpr hp,
          rmtree, lookup_filter_ne fs.entries dst p hp]

/-- Witness for C7's theorem: mirroring directory `s` over the existing
file `d` while `a` survives untouched. -/
theorem c7_witness :
    (run_backup "s" "d" fsDirCase).1
      = [Action.rmtree "d", Action.copytree "s" "d"]
    ∧ (run_backup "s" "d" fsDirCase).2.map (fun fs2 => fs2.entries.lookup "d")
        = Except.ok (fsDirCase.entries.lookup "s")
    ∧ (run_backup "s" "d" fsDirCase).2.map (fun fs2 => fs2.entries.lookup "a")
        = Except.ok (fsDirCase.entries.lookup "a") := by
  have h := c7_dir_mirror "s" "d" fsDirCase rfl rfl
  have h2 := h.2 rfl (by decide)
  exact ⟨h.1.trans rfl, h2.1, h2.2 "a" (by decide)⟩

/-- Claim C2, counterexample: a tick over two registered tasks in which the
first task's copy primitive raises ends with the uncaught exception — the
error is not recovered, the second task is never executed, and the
scheduler process crashes — refuting the claim that every runtime per-task
error is recovered locally. -/
theorem c2_counterexample :
    runTick [taskLocked, taskLocked2] fsLocked 0
      = Except.error PyExc.copyError := by rfl

/-- Claim C2, amended: a missing source is recovered locally — the task's
copy is skipped, the filesystem is untouched and the tick continues with
the remaining tasks — but an exception raised while executing a task (such
as a copy failure) is not caught anywhere: it aborts the tick, the
remaining tasks are not executed, and it propagates out of the poll loop,
crashing the scheduler. -/
theorem c2_amended :
    (∀ (t : Task) (ts : List Task) (fs : FS) (now : Int),
        pexists t.source fs = false →
        condMatches t.cond t.created_at now = some true →
        runTick (t :: ts) fs now = runTick ts fs now)
    ∧ (∀ (t : Task) (ts : List Task) (fs : FS) (now : Int) (e : PyExc),
        runTask t fs now = Except.error e →
        runTick (t :: ts) fs now = Except.error e) := by
  constructor
  · intro t ts fs now hmiss hmatch
    simp [runTick, runTask, hmatch, run_backup, hmiss]
  · intro t ts fs now e herr
    simp [runTick, herr]

/-- Witness for C2's amended theorem: a missing-source task is skipped and
the tick goes on; a locked-destination task crashes the tick. -/
theorem c2_witness :
    runTick [taskMissing] fsLocked 0 = runTick [] fsLocked 0
    ∧ runTick [taskLocked] fsLocked 0 = Except.error PyExc.copyError := by
  constructor
  · exact c2_amended.1 taskMissing [] fsLocked 0 rfl (by decide)
  · exact c2_amended.2 taskLocked [] fsLocked 0 PyExc.copyError rfl

/-- Whatever the instruction loop does to the filesystem, the task list it
registers is the pure `tasksOfAux` of the instructions and the
registration clock. -/
theorem loadInstructions_tasks :
    ∀ (insts : List Instruction) (fs : FS) (clock : Nat → Int) (i : Nat)
      (fs' : FS) (ts : List Task) (tr : List (String × String)),
      loadInstructions insts fs clock i = Except.ok (fs', ts, tr) →
      ts = tasksOfAux insts clock i := by
  intro insts
  induction insts with
  | nil =>
    intro fs clock i fs' ts tr h
    simp only [loadInstructions, Except.ok.injEq, Prod.mk.injEq] at h
    exact h.2.1.symm
  | cons inst rest ih =>
    intro fs clock i fs' ts tr h
    cases hc : inst.cond with
    | none =>
      simp only [loadInstructions, hc] at h
      cases hb : (run_backup inst.source inst.destination fs).2 with
      | error e => simp [hb] at h
      | ok fs₁ =>
        simp only [hb] at h
        cases hr : loadInstructions rest fs₁ clock (i + 1) with
        | error e => simp [hr] at h
        | ok trip =>
          obtain ⟨fs₂, ts₂, tr₂⟩ := trip
          simp only [hr, Except.ok.injEq, Prod.mk.injEq] at h
          obtain ⟨-, h2, -⟩ := h
          rw [← h2, ih fs₁ clock (i + 1) fs₂ ts₂ tr₂ hr]
          simp [tasksOfAux, hc]
    | some e =>
      simp only [loadInstructions, hc] at h
      cases hr : loadInstructions rest fs clock (i + 1) with
      | error err => simp [hr] at h
      | ok trip =>
        obtain ⟨fs₂, ts₂, tr₂⟩ := trip
        simp only [hr, Except.ok.injEq, Prod.mk.injEq] at h
        obtain ⟨-, h2, -⟩ := h
        rw [← h2, ih fs clock (i + 1) fs₂ ts₂ tr₂ hr]
        simp [tasksOfAux, hc]

/-- Claim C3, confirmed: a successful `App._parse_run` factors through the
pure, effect-free parse: the instruction list is `parseProgram text`, a
function of the program text alone; the immediate executions and the task
registrations all happen in the subsequent instruction loop; and every
registered task's `created_at` stamp is a clock reading of that
registration loop (`tasksOfAux`), not of the parse. -/
theorem c3_parse_pure (text : String) (fs : FS) (clock : Nat → Int)
    (insts : List Instruction) (fs' : FS) (ts : List Task)
    (tr : List (String × String))
    (hp : parseProgram text = Except.ok insts)
    (h : parseRun text fs clock = Except.ok (fs', ts, tr)) :
    parseRun text fs clock = loadInstructions insts fs clock 0
    ∧ ts = tasksOfAux insts clock 0 := by
  have h' : loadInstructions insts fs clock 0 = Except.ok (fs', ts, tr) := by
    simpa [parseRun, hp] using h
  exact ⟨by simp [parseRun, hp], loadInstructions_tasks insts fs clock 0 fs' ts tr h'⟩

/-- Witness for C3's theorem on the one-statement program
`backup a to b : every 2 minutes`. -/
theorem c3_witness :
    parseRun "backup a to b : every 2 minutes" ⟨[], []⟩ clockId
      = loadInstructions [⟨"a", "b", some (TimeExpr.everyNbMinutes 2)⟩]
          ⟨[], []⟩ clockId 0
    ∧ [⟨"a", "b", Condition.everyMin 2, 0⟩]
      = tasksOfAux [⟨"a", "b", some (TimeExpr.everyNbMinutes 2)⟩] clockId 0 :=
  c3_parse_pure "backup a to b : every 2 minutes" ⟨[], []⟩ clockId
    [⟨"a", "b", some (TimeExpr.everyNbMinutes 2)⟩] ⟨[], []⟩
    [⟨"a", "b", Condition.everyMin 2, 0⟩] [] rfl rfl

/-- When every instruction is unconditional, the instruction loop registers
no task and executes each instruction exactly once, in program order. -/
theorem loadInstructions_uncond :
    ∀ (insts : List Instruction) (fs : FS) (clock : Nat → Int) (i : Nat)
      (fs' : FS) (ts : List Task) (tr : List (String × String)),
      (∀ inst ∈ insts, inst.cond = none) →
      loadInstructions insts fs clock i = Except.ok (fs', ts, tr) →
      ts = [] ∧ tr = insts.map (fun inst => (inst.source, inst.destination)) := by
  intro insts
  induction insts with
  | nil =>
    intro fs clock i fs' ts tr _ h
    simp only [loadInstructions, Except.ok.injEq, Prod.mk.injEq] at h
    exact ⟨h.2.1.symm, by simp [← h.2.2]⟩
  | cons inst rest ih =>
    intro fs clock i fs' ts tr hu h
    have hc : inst.cond = none := hu inst (by simp)
    simp only [loadInstructions, hc] at h
    cases hb : (run_backup inst.source inst.destination fs).2 with
    | error e => simp [hb] at h
    | ok fs₁ =>
      simp only [hb] at h
      cases hr : loadInstructions rest fs₁ clock (i + 1) with
      | error e => simp [hr] at h
      | ok trip =>
        obtain ⟨fs₂, ts₂, tr₂⟩ := trip
        simp only [hr, Except.ok.injEq, Prod.mk.injEq] at h
        obtain ⟨-, h2, h3⟩ := h
        have hrest := ih fs₁ clock (i + 1) fs₂ ts₂ tr₂
          (fun j hj => hu j (List.mem_cons_of_mem _ hj)) hr
        refine ⟨by rw [← h2, hrest.1], ?_⟩
        rw [← h3, hrest.2]
        simp

/-- Claim C4, confirmed: for a valid program whose statements are all
unconditional, a completed load leaves the conditional task list empty,
the recorded immediate executions are exactly the instructions in program
order (each exactly once), and the runner returns at once without entering
the poll loop, leaving the filesystem as the load left it. -/
theorem c4_unconditional (text : String) (insts : List Instruction)
    (fs : FS) (clock : Nat → Int) (fs' : FS) (ts : List Task)
    (tr : List (String × String))
    (hp : parseProgram text = Except.ok insts)
    (hu : ∀ inst ∈ insts, inst.cond = none)
    (h : parseRun text fs clock = Except.ok (fs', ts, tr)) :
    ts = []
    ∧ tr = insts.map (fun inst => (inst.source, inst.destination))
    ∧ ∀ fuel, appRun ts fs' clock fuel = Except.ok fs' := by
  have h' : loadInstructions insts fs clock 0 = Except.ok (fs', ts, tr) := by
    simpa [parseRun, hp] using h
  obtain ⟨h1, h2⟩ := loadInstructions_uncond insts fs clock 0 fs' ts tr hu h'
  exact ⟨h1, h2, fun fuel => by simp [appRun, h1]⟩

/-- Witness for C4's theorem on a two-statement unconditional program. -/
theorem c4_witness :
    ([] : List Task) = []
    ∧ ([("a", "b"), ("c", "d")] : List (String × String))
      = ([⟨"a", "b", none⟩, ⟨"c", "d", none⟩] : List Instruction).map
          (fun inst => (inst.source, inst.destination))
    ∧ appRun [] fsFilesAfter clockId 3 = Except.ok fsFilesAfter := by
  have h := c4_unconditional "backup a to b\nbackup c to d"
    [⟨"a", "b", none⟩, ⟨"c", "d", none⟩] fsFiles clockId fsFilesAfter
    [] [("a", "b"), ("c", "d")] rfl (by decide) rfl
  exact ⟨h.1, h.2.1, h.2.2 3⟩

/-- Claim C6, confirmed: when the program text is malformed the whole-text
parse raises, `App._parse_run` propagates the exception before the
instruction loop ever starts — no instruction is executed and no task is
registered, even when a prefix of the program is well-formed. -/
theorem c6_parse_error (text : String) (fs : FS) (clock : Nat → Int)
    (e : PyExc) (h : parseProgram text = Except.error e) :
    parseRun text fs clock = Except.error e := by
  simp [parseRun, h]

/-- Witness for C6's theorem: a two-line program whose first line is
well-formed and whose second line is malformed halts startup with a parse
error. -/
theorem c6_witness :
    parseRun "backup a to b\nbackup a" fsFiles clockId
      = Except.error PyExc.parseError :=
  c6_parse_error "backup a to b\nbackup a" fsFiles clockId
    PyExc.parseError rfl

end EasyBackup
